import Mathlib

/-!
Verification of the `FilterBank` filter-bank generator (Code/Wrapper.py) against
its specification.  The Python source is shallowly embedded below: numpy arrays
become functions `Fin n → Fin n → ℝ`, numpy's elementwise arithmetic becomes
pointwise real arithmetic, and the two OpenCV primitives the source uses
(`cv2.filter2D` and `cv2.getRotationMatrix2D`/`cv2.warpAffine`) are embedded by
their documented real-valued semantics (cross-correlation with reflect-101
border; affine warp with bilinear interpolation and constant-0 border).
-/

open Real

namespace EdgeDetection

noncomputable section

/-- A size-`n` square filter kernel: a 2D array of reals, indexed (row, column). -/
def Kernel (n : ℕ) : Type := Fin n → Fin n → ℝ

/-- Embedding of `numpy.linspace a b num`: the `k`-th of `num` evenly spaced samples from `a` to `b`. -/
def linspace (a b : ℝ) (num : ℕ) (k : ℕ) : ℝ := a + k * ((b - a) / ((num : ℝ) - 1))

/-- The X grid of `np.meshgrid(spread, spread)` with `spread = linspace(-(n//2), n//2, n)`:
`X[i][j] = spread[j]`. -/
def gridX (n : ℕ) : Kernel n := fun _ j => linspace (-((n / 2 : ℕ) : ℝ)) ((n / 2 : ℕ) : ℝ) n j

/-- The Y grid of `np.meshgrid(spread, spread)`: `Y[i][j] = spread[i]`. -/
def gridY (n : ℕ) : Kernel n := fun i _ => linspace (-((n / 2 : ℕ) : ℝ)) ((n / 2 : ℕ) : ℝ) n i

/-- Embedding of `FilterBank.gaussian_filter` (Wrapper.py lines 29-48): 2D Gaussian evaluated
pointwise on the grid `(X, Y)`; `sigma_y` is `elongation * sigma_x` when
`elongate == 'yes'`, else `sigma_x`. -/
def gaussian_filter {n : ℕ} (X Y : Kernel n) (sigma elongation : ℝ) (elongate : String) :
    Kernel n := fun i j =>
  let sigma_x := sigma
  let sigma_y := if elongate = "yes" then elongation * sigma_x else sigma_x
  Real.exp (-((X i j) ^ 2 / (2 * sigma_x ^ 2) + (Y i j) ^ 2 / (2 * sigma_y ^ 2))) /
    (2 * π * sigma_x * sigma_y)

/-- Embedding of `FilterBank.derivative_gaussian_filter` (Wrapper.py lines 51-93): dispatch on the
`order` list; the five supported orders return a kernel, any other order falls off
the if/elif chain, which in Python is an implicit `return None` — embedded as `none`. -/
def derivative_gaussian_filter {n : ℕ} (X Y : Kernel n) (sigma elongation : ℝ)
    (order : List ℤ) (elongate : String) : Option (Kernel n) :=
  let gaussian := gaussian_filter X Y sigma elongation elongate
  let sigma_x := sigma
  let sigma_y := sigma_x * elongation
  if order = [1, 0] then
    some (fun i j => (-(X i j) / sigma_x ^ 2) * gaussian i j)
  else if order = [0, 1] then
    some (fun i j => (-(Y i j) / sigma_y ^ 2) * gaussian i j)
  else if order = [2, 0] then
    some (fun i j => (((X i j) ^ 2 - sigma_x ^ 2) / sigma_x ^ 4) * gaussian i j)
  else if order = [0, 2] then
    some (fun i j => (((Y i j) ^ 2 - sigma_y ^ 2) / sigma_y ^ 4) * gaussian i j)
  else if order = [2, 2] then
    some (fun i j => (((X i j) ^ 2 + (Y i j) ^ 2 - 2 * sigma ^ 2) / sigma ^ 4) * gaussian i j)
  else none

/-- OpenCV `BORDER_REFLECT_101` index reflection (`gfedcb|abcdefgh|gfedcba`); a single
reflection step, exact for the ±1 overshoots produced by a 3×3 kernel on a 7×7 image. -/
def reflect101 (m : ℕ) (k : ℤ) : ℤ :=
  if k < 0 then -k else if (m : ℤ) ≤ k then 2 * ((m : ℤ) - 1) - k else k

/-- Read pixel (row `r`, column `c`) of `src`, 0 outside the image. -/
def pixel {n : ℕ} (src : Kernel n) (r c : ℤ) : ℝ :=
  if hr : 0 ≤ r ∧ r < (n : ℤ) then
    if hc : 0 ≤ c ∧ c < (n : ℤ) then src ⟨r.toNat, by omega⟩ ⟨c.toNat, by omega⟩ else 0
  else 0

/-- Embedding of `cv2.filter2D(src, -1, ker)` for a 3×3 kernel with the default center anchor and
default `BORDER_REFLECT_101` border: the cross-correlation of `src` with `ker`
(OpenCV computes correlation, not convolution). -/
def filter2D {n : ℕ} (src : Kernel n) (ker : Fin 3 → Fin 3 → ℝ) : Kernel n :=
  fun r c => ∑ i : Fin 3, ∑ j : Fin 3,
    ker i j * pixel src (reflect101 n ((r : ℤ) + ((i : ℕ) : ℤ) - 1))
      (reflect101 n ((c : ℤ) + ((j : ℕ) : ℤ) - 1))

/-- The fixed Sobel-x kernel of `dog_filter_bank` (Wrapper.py line 100). -/
def sobel_x : Fin 3 → Fin 3 → ℝ := ![![1, 0, -1], ![2, 0, -2], ![1, 0, -1]]

/-- A 2×3 affine transform matrix `[[m00 m01 m02], [m10 m11 m12]]`. -/
structure Affine where
  m00 : ℝ
  m01 : ℝ
  m02 : ℝ
  m10 : ℝ
  m11 : ℝ
  m12 : ℝ

/-- Embedding of `cv2.getRotationMatrix2D((cx, cy), angle, scale)` with `angle` in degrees. -/
def getRotationMatrix2D (cx cy angle scale : ℝ) : Affine :=
  let α := scale * Real.cos (angle * π / 180)
  let β := scale * Real.sin (angle * π / 180)
  ⟨α, β, (1 - α) * cx - β * cy, -β, α, β * cx + (1 - α) * cy⟩

/-- Embedding of `cv2.invertAffineTransform`: adjugate over the determinant.  OpenCV uses the
reciprocal of the determinant when it is nonzero and 0 otherwise, which over ℝ
coincides with Lean's `1 / 0 = 0`. -/
def invertAffineTransform (M : Affine) : Affine :=
  let D := M.m00 * M.m11 - M.m01 * M.m10
  let Di := 1 / D
  ⟨M.m11 * Di, -M.m01 * Di, (M.m01 * M.m12 - M.m11 * M.m02) * Di,
    -M.m10 * Di, M.m00 * Di, (M.m10 * M.m02 - M.m00 * M.m12) * Di⟩

/-- Bilinear interpolation of `src` at real coordinates (`sx`, `sy`) = (column, row);
samples outside the image read 0 (`BORDER_CONSTANT` with value 0). -/
def bilinear {n : ℕ} (src : Kernel n) (sx sy : ℝ) : ℝ :=
  let x0 := ⌊sx⌋
  let y0 := ⌊sy⌋
  let a := sx - x0
  let b := sy - y0
  (1 - a) * (1 - b) * pixel src y0 x0 + a * (1 - b) * pixel src y0 (x0 + 1) +
    (1 - a) * b * pixel src (y0 + 1) x0 + a * b * pixel src (y0 + 1) (x0 + 1)

/-- Embedding of `cv2.warpAffine(src, M, (n, n))` with the default `INTER_LINEAR` interpolation and
constant-0 border: `dst(x, y) = src(invertAffineTransform(M) · (x, y, 1))`. -/
def warpAffine {n : ℕ} (src : Kernel n) (M : Affine) : Kernel n := fun r c =>
  let iM := invertAffineTransform M
  let sx := iM.m00 * ((c : ℕ) : ℝ) + iM.m01 * ((r : ℕ) : ℝ) + iM.m02
  let sy := iM.m10 * ((c : ℕ) : ℝ) + iM.m11 * ((r : ℕ) : ℝ) + iM.m12
  bilinear src sx sy

/-- Rotation of a size-`n` kernel by `angle` degrees about the center pixel
`(n//2, n//2)`, exactly as the source combines `getRotationMatrix2D` (unit scale)
with `warpAffine`. -/
def rotate (n : ℕ) (angle : ℝ) (src : Kernel n) : Kernel n :=
  warpAffine src (getRotationMatrix2D ((n / 2 : ℕ) : ℝ) ((n / 2 : ℕ) : ℝ) angle 1)

/-- The two DoG scales (Wrapper.py line 99). -/
def dog_scales : List ℝ := [1, Real.sqrt 2]

/-- The oriented DoG template (Wrapper.py lines 111-115): the 7×7 isotropic Gaussian
(the source's `reshape(size, size)` is the identity on an already-7×7 array) filtered
with `sobel_x` via `cv2.filter2D`. -/
def dogTemplate (sigma : ℝ) : Kernel 7 :=
  filter2D (gaussian_filter (gridX 7) (gridY 7) sigma 1 "yes") sobel_x

/-- Embedding of `FilterBank.dog_filter_bank` (Wrapper.py lines 95-123): for each scale, the DoG
template is rotated through 16 orientations `i * 360 / 16` degrees. -/
def dog_filter_bank : List (Kernel 7) :=
  (dog_scales.map fun sigma =>
    (List.range 16).map fun (i : ℕ) =>
      rotate 7 ((i : ℝ) * 360 / 16) (dogTemplate sigma)).flatten

/-- The LM scale sets (Wrapper.py lines 143-147): `'small'` selects
`{1, √2, 2, 2√2}`, anything else selects `{√2, 2, 2√2, 4}`. -/
def lmScales (t : String) : List ℝ :=
  if t = "small" then [1, Real.sqrt 2, 2, 2 * Real.sqrt 2]
  else [Real.sqrt 2, 2, 2 * Real.sqrt 2, 4]

/-- Helper: `derivative_gaussian_filter` on the 49×49 LM grid with elongation 3, with the
`Option` unwrapped; `LM` only calls it with supported orders, where it is `some`. -/
def lmDeriv (sigma : ℝ) (order : List ℤ) (elongate : String) : Kernel 49 :=
  (derivative_gaussian_filter (gridX 49) (gridY 49) sigma 3 order elongate).getD
    (fun _ _ => 0)

/-- Embedding of `FilterBank.LM` (Wrapper.py lines 125-186): for each of the first three scales,
6 rotated first-x-derivative kernels then 6 rotated second-x-derivative kernels;
then 4 Laplacian-of-Gaussian kernels, 4 more at 3× the scales, and 4 Gaussians. -/
def LM (t : String) : List (Kernel 49) :=
  (((lmScales t).take 3).map fun sigma =>
      ((List.range 6).map fun (i : ℕ) =>
        rotate 49 ((i : ℝ) * 360 / 6) (lmDeriv sigma [1, 0] "yes"))
      ++ (List.range 6).map fun (i : ℕ) =>
        rotate 49 ((i : ℝ) * 360 / 6) (lmDeriv sigma [2, 0] "yes")).flatten
  ++ (lmScales t).map (fun sigma => lmDeriv sigma [2, 2] "no")
  ++ (lmScales t).map (fun sigma => lmDeriv (sigma * 3) [2, 2] "no")
  ++ (lmScales t).map (fun sigma => gaussian_filter (gridX 49) (gridY 49) sigma 3 "no")

/-- The fixed Gabor wavelength set (Wrapper.py line 194). -/
def gaborWavelengths : List ℝ := [2, 5, 10, 15, 20]

/-- Wavelength of the `w`-th Gabor block. -/
def lamOf (w : Fin 5) : ℝ := gaborWavelengths.getD w 0

/-- The Gabor kernel of wavelength `lam` at orientation index `i` of `orientation`
(Wrapper.py lines 198-201): `θ = i·π/orientation`, rotated coordinates, Gaussian
envelope times cosine carrier. -/
def gaborKernel (lam : ℝ) (orientation : ℕ) (i : ℕ) (sigma gamma psi : ℝ) : Kernel 49 :=
  fun px py =>
    let θ := (i : ℝ) * π / (orientation : ℝ)
    let x := gridX 49 px py
    let y := gridY 49 px py
    let x_theta := x * Real.cos θ + y * Real.sin θ
    let y_theta := -x * Real.sin θ + y * Real.cos θ
    Real.exp (-0.5 * (x_theta ^ 2 + gamma ^ 2 * y_theta ^ 2) / sigma ^ 2) *
      Real.cos (2 * π * x_theta / lam + psi)

/-- Embedding of `FilterBank.gabor` (Wrapper.py lines 188-204): for each wavelength, for each of
`orientation` orientation indices, one Gabor kernel on the 49×49 grid. -/
def gabor (orientation : ℕ) (sigma gamma psi : ℝ) : List (Kernel 49) :=
  (gaborWavelengths.map fun lam =>
    (List.range orientation).map fun (i : ℕ) =>
      gaborKernel lam orientation i sigma gamma psi).flatten

/-- Modelled from the spec: the mathematical 2D convolution (kernel flipped in both
axes) of `src` with a 3×3 `ker`, same-size output, same reflect-101 border policy as
`filter2D` — what claim C3's "mathematical 2D convolution" denotes. -/
def conv2dSpec {n : ℕ} (src : Kernel n) (ker : Fin 3 → Fin 3 → ℝ) : Kernel n :=
  fun r c => ∑ i : Fin 3, ∑ j : Fin 3,
    ker i j * pixel src (reflect101 n ((r : ℤ) - (((i : ℕ) : ℤ) - 1)))
      (reflect101 n ((c : ℤ) - (((j : ℕ) : ℤ) - 1)))

/-- Modelled from the spec (§4.4, claim C1): the LM bank with all 18 first-derivative
rotations first, then all 18 second-derivative rotations, then the tail blocks. -/
def lmSpecOrder (t : String) : List (Kernel 49) :=
  (((lmScales t).take 3).map fun sigma =>
      (List.range 6).map fun (i : ℕ) =>
        rotate 49 ((i : ℝ) * 360 / 6) (lmDeriv sigma [1, 0] "yes")).flatten
  ++ (((lmScales t).take 3).map fun sigma =>
      (List.range 6).map fun (i : ℕ) =>
        rotate 49 ((i : ℝ) * 360 / 6) (lmDeriv sigma [2, 0] "yes")).flatten
  ++ (lmScales t).map (fun sigma => lmDeriv sigma [2, 2] "no")
  ++ (lmScales t).map (fun sigma => lmDeriv (sigma * 3) [2, 2] "no")
  ++ (lmScales t).map (fun sigma => gaussian_filter (gridX 49) (gridY 49) sigma 3 "no")


/-- One per-scale LM block: 6 rotated first-x-derivative kernels followed by
6 rotated second-x-derivative kernels (the body of the loop over `scales[:3]`). -/
def lmBlock (sigma : ℝ) : List (Kernel 49) :=
  ((List.range 6).map fun (i : ℕ) => rotate 49 ((i : ℝ) * 360 / 6) (lmDeriv sigma [1, 0] "yes"))
  ++ (List.range 6).map fun (i : ℕ) => rotate 49 ((i : ℝ) * 360 / 6) (lmDeriv sigma [2, 0] "yes")

/-- Row index 3 of a 7×7 kernel. -/
def r3 : Fin 7 := ⟨3, by norm_num⟩

/-- Column index 2 of a 7×7 kernel. -/
def c2 : Fin 7 := ⟨2, by norm_num⟩

/-- Index 0 of a 49×49 kernel. -/
def f0 : Fin 49 := ⟨0, by norm_num⟩

lemma gridX49_eval (i j : Fin 49) : gridX 49 i j = (j : ℝ) - 24 := by
  simp [gridX, linspace]
  norm_num
  ring

lemma gridY49_eval (i j : Fin 49) : gridY 49 i j = (i : ℝ) - 24 := by
  simp [gridY, linspace]
  norm_num
  ring

lemma gridX7_eval (i j : Fin 7) : gridX 7 i j = (j : ℝ) - 3 := by
  simp [gridX, linspace]
  norm_num
  ring

lemma gridY7_eval (i j : Fin 7) : gridY 7 i j = (i : ℝ) - 3 := by
  simp [gridY, linspace]
  norm_num
  ring

lemma pixel_natCast {n : ℕ} (src : Kernel n) (i j : Fin n) :
    pixel src ((i : ℕ) : ℤ) ((j : ℕ) : ℤ) = src i j := by
  have hi : (0 : ℤ) ≤ ((i : ℕ) : ℤ) ∧ ((i : ℕ) : ℤ) < (n : ℤ) :=
    ⟨Int.natCast_nonneg _, by exact_mod_cast i.isLt⟩
  have hj : (0 : ℤ) ≤ ((j : ℕ) : ℤ) ∧ ((j : ℕ) : ℤ) < (n : ℤ) :=
    ⟨Int.natCast_nonneg _, by exact_mod_cast j.isLt⟩
  rw [pixel, dif_pos hi, dif_pos hj]
  congr 1

lemma bilinear_intCoords {n : ℕ} (src : Kernel n) (i j : Fin n) :
    bilinear src ((j : ℕ) : ℝ) ((i : ℕ) : ℝ) = src i j := by
  simp only [bilinear]
  rw [Int.floor_natCast, Int.floor_natCast]
  have ha : ((j : ℕ) : ℝ) - (((j : ℕ) : ℤ) : ℝ) = 0 := by push_cast; ring
  have hb : ((i : ℕ) : ℝ) - (((i : ℕ) : ℤ) : ℝ) = 0 := by push_cast; ring
  rw [ha, hb, pixel_natCast]
  ring

lemma rotate_zero {n : ℕ} (src : Kernel n) (i j : Fin n) :
    rotate n 0 src i j = src i j := by
  have h0 : (0 : ℝ) * π / 180 = 0 := by ring
  unfold rotate warpAffine getRotationMatrix2D invertAffineTransform
  simp only [h0, Real.cos_zero, Real.sin_zero]
  norm_num
  exact bilinear_intCoords src i j

lemma flatten_map_getElem {α β : Type} (ws : List α) (B : α → List β) (L : ℕ)
    (hL : ∀ a, (B a).length = L) :
    ∀ (w d : ℕ), d < L →
      ((ws.map B).flatten)[L * w + d]? = (ws[w]?).bind fun a => (B a)[d]? := by
  induction ws with
  | nil => intro w d _; simp
  | cons a tl ih =>
    intro w d hd
    cases w with
    | zero =>
      simp only [List.map_cons, List.flatten_cons, Nat.mul_zero, Nat.zero_add]
      rw [List.getElem?_append_left (by rw [hL a]; exact hd)]
      simp
    | succ w' =>
      simp only [List.map_cons, List.flatten_cons]
      rw [List.getElem?_append_right (by rw [hL a]; nlinarith)]
      rw [hL a]
      have harith : L * (w' + 1) + d - L = L * w' + d := by
        have : L * (w' + 1) = L * w' + L := by ring
        omega
      rw [harith, ih w' d hd]
      simp

lemma sobel_val_00 : sobel_x 0 0 = 1 := rfl

lemma sobel_val_01 : sobel_x 0 1 = 0 := rfl

lemma sobel_val_02 : sobel_x 0 2 = -1 := rfl

lemma sobel_val_10 : sobel_x 1 0 = 2 := rfl

lemma sobel_val_11 : sobel_x 1 1 = 0 := rfl

lemma sobel_val_12 : sobel_x 1 2 = -2 := rfl

lemma sobel_val_20 : sobel_x 2 0 = 1 := rfl

lemma sobel_val_21 : sobel_x 2 1 = 0 := rfl

lemma sobel_val_22 : sobel_x 2 2 = -1 := rfl

lemma corr_neg_conv {n : ℕ} (src : Kernel n) (r c : Fin n) :
    filter2D src sobel_x r c = -conv2dSpec src sobel_x r c := by
  simp only [filter2D, conv2dSpec, Fin.sum_univ_three]
  norm_num [sobel_val_00, sobel_val_01, sobel_val_02, sobel_val_10, sobel_val_11,
    sobel_val_12, sobel_val_20, sobel_val_21, sobel_val_22]
  ring_nf

lemma LM_small_six :
    (LM "small")[6]? = some (rotate 49 (((0 : ℕ) : ℝ) * 360 / 6) (lmDeriv 1 [2, 0] "yes")) := by
  rfl

lemma lmSpecOrder_small_six :
    (lmSpecOrder "small")[6]? =
      some (rotate 49 (((0 : ℕ) : ℝ) * 360 / 6) (lmDeriv (Real.sqrt 2) [1, 0] "yes")) := by
  rfl

lemma f24_lt : (24 : ℕ) < 49 := by norm_num

lemma lmDeriv_sdx_center :
    lmDeriv 1 [2, 0] "yes" ⟨24, f24_lt⟩ ⟨24, f24_lt⟩ = -(1 / (6 * π)) := by
  have hx : gridX 49 ⟨24, f24_lt⟩ ⟨24, f24_lt⟩ = 0 := by
    rw [gridX49_eval]; norm_num
  have hy : gridY 49 ⟨24, f24_lt⟩ ⟨24, f24_lt⟩ = 0 := by
    rw [gridY49_eval]; norm_num
  simp only [lmDeriv, derivative_gaussian_filter, gaussian_filter]
  norm_num [hx, hy]
  ring

lemma lmDeriv_fdx_center :
    lmDeriv (Real.sqrt 2) [1, 0] "yes" ⟨24, f24_lt⟩ ⟨24, f24_lt⟩ = 0 := by
  have hx : gridX 49 ⟨24, f24_lt⟩ ⟨24, f24_lt⟩ = 0 := by
    rw [gridX49_eval]; norm_num
  simp only [lmDeriv, derivative_gaussian_filter, gaussian_filter]
  norm_num [hx]

lemma lm_angle_zero : (((0 : ℕ) : ℝ)) * 360 / 6 = 0 := by norm_num


lemma lmScales_length (t : String) : (lmScales t).length = 4 := by
  by_cases h : t = "small" <;> simp [lmScales, h]

lemma LM_eq_blocks (t : String) :
    LM t =
      lmBlock ((lmScales t).getD 0 0) ++ lmBlock ((lmScales t).getD 1 0)
        ++ lmBlock ((lmScales t).getD 2 0)
        ++ ((lmScales t).map fun sigma => lmDeriv sigma [2, 2] "no")
        ++ ((lmScales t).map fun sigma => lmDeriv (sigma * 3) [2, 2] "no")
        ++ ((lmScales t).map fun sigma =>
              gaussian_filter (gridX 49) (gridY 49) sigma 3 "no") := by
  by_cases h : t = "small" <;>
    simp [LM, lmScales, lmBlock, h, List.append_assoc]

lemma dog_eq_blocks :
    dog_filter_bank =
      ((List.range 16).map fun (i : ℕ) => rotate 7 ((i : ℝ) * 360 / 16) (dogTemplate 1))
      ++ ((List.range 16).map fun (i : ℕ) =>
            rotate 7 ((i : ℝ) * 360 / 16) (dogTemplate (Real.sqrt 2))) := by
  simp [dog_filter_bank, dog_scales]


lemma gauss7_eval (i j : Fin 7) :
    gaussian_filter (gridX 7) (gridY 7) 1 1 "yes" i j
      = Real.exp (-((((j : ℕ) : ℝ) - 3) ^ 2 + (((i : ℕ) : ℝ) - 3) ^ 2) / 2) / (2 * π) := by
  simp [gaussian_filter, gridX7_eval, gridY7_eval]
  ring_nf

lemma dogTemplate_neg : dogTemplate 1 r3 c2 < 0 := by
  simp only [dogTemplate, filter2D, Fin.sum_univ_three]
  norm_num [sobel_val_00, sobel_val_01, sobel_val_02, sobel_val_10, sobel_val_11,
    sobel_val_12, sobel_val_20, sobel_val_21, sobel_val_22, r3, c2, reflect101,
    pixel]
  rw [gauss7_eval, gauss7_eval, gauss7_eval, gauss7_eval, gauss7_eval, gauss7_eval]
  have ht2 : Int.toNat 2 = 2 := rfl
  have ht3 : Int.toNat 3 = 3 := rfl
  have ht4 : Int.toNat 4 = 4 := rfl
  simp only [Fin.val_mk, ht2, ht3, ht4]
  norm_num
  have h2π : (0 : ℝ) < 2 * π := by positivity
  have d1 : rexp (-(5 / 2 : ℝ)) / (2 * π) < rexp (-(1 / 2 : ℝ)) / (2 * π) :=
    (div_lt_div_iff_of_pos_right h2π).mpr (Real.exp_lt_exp.mpr (by norm_num))
  have d2 : rexp (-2 : ℝ) / (2 * π) < 1 / (2 * π) := by
    apply (div_lt_div_iff_of_pos_right h2π).mpr
    have h := Real.exp_lt_exp.mpr (show (-2 : ℝ) < 0 by norm_num)
    rw [Real.exp_zero] at h
    exact h
  have e2 : (1 : ℝ) / (2 * π) = π⁻¹ * (1 / 2) := by ring
  rw [e2] at d2
  linarith [d1, d2]

/-- Claim C1, counterexample: `LM` does NOT return the 18 first-derivative kernels
followed by the 18 second-derivative kernels; already at index 6 the actual bank
holds a second-derivative kernel (scale 1) where the claimed order would hold a
first-derivative kernel (scale √2) — their center pixels differ (−1/(6π) vs 0). -/
theorem C1_cex : LM "small" ≠ lmSpecOrder "small" := by
  intro h
  have h6 := congrArg (fun l => l[6]?) h
  simp only [LM_small_six, lmSpecOrder_small_six] at h6
  rw [lm_angle_zero] at h6
  have hp := Option.some.inj h6
  have hk := congrFun (congrFun hp ⟨24, f24_lt⟩) ⟨24, f24_lt⟩
  rw [rotate_zero, rotate_zero, lmDeriv_sdx_center, lmDeriv_fdx_center] at hk
  have hπ : π ≠ 0 := Real.pi_ne_zero
  field_simp at hk

/-- Claim C1, amended: the LM bank interleaves the derivative kernels per scale —
for each of the first three scales in turn, 6 rotated first-x-derivative kernels then
6 rotated second-x-derivative kernels — followed by 4 Laplacian-of-Gaussian kernels,
4 more at 3× the scales, and 4 Gaussian smoothing kernels. -/
theorem C1_amended_thm (t : String) :
    LM t =
      lmBlock ((lmScales t).getD 0 0) ++ lmBlock ((lmScales t).getD 1 0)
        ++ lmBlock ((lmScales t).getD 2 0)
        ++ ((lmScales t).map fun sigma => lmDeriv sigma [2, 2] "no")
        ++ ((lmScales t).map fun sigma => lmDeriv (sigma * 3) [2, 2] "no")
        ++ ((lmScales t).map fun sigma =>
              gaussian_filter (gridX 49) (gridY 49) sigma 3 "no") :=
  LM_eq_blocks t

/-- Claim C2, counterexample: at the unsupported order `[1, 1]` the source returns
`none` (Python implicitly returns `None`) instead of failing with InvalidArgument. -/
theorem C2_cex :
    derivative_gaussian_filter (gridX 49) (gridY 49) 1 3 [1, 1] "yes" = none := rfl

/-- Claim C2, amended: for every `order` outside the five enumerated values,
`derivative_gaussian_filter` falls off the if/elif chain and implicitly returns
nothing (Python `None`, embedded as `Option.none`); it does not raise an
InvalidArgument error — that requirement applies only to reimplementations. -/
theorem C2_amended_thm {n : ℕ} (X Y : Kernel n) (sigma elongation : ℝ) (order : List ℤ)
    (elongate : String)
    (h : order ∉ ([[1, 0], [0, 1], [2, 0], [0, 2], [2, 2]] : List (List ℤ))) :
    derivative_gaussian_filter X Y sigma elongation order elongate = none := by
  simp only [List.mem_cons, List.not_mem_nil, or_false, not_or] at h
  obtain ⟨h1, h2, h3, h4, h5⟩ := h
  simp [derivative_gaussian_filter, h1, h2, h3, h4, h5]

/-- Witness for C2 (amended) at the unsupported order `[3, 3]`. -/
theorem C2_witness :
    ([3, 3] : List ℤ) ∉ ([[1, 0], [0, 1], [2, 0], [0, 2], [2, 2]] : List (List ℤ)) ∧
      derivative_gaussian_filter (gridX 49) (gridY 49) 2 3 [3, 3] "no" = none :=
  ⟨by decide, C2_amended_thm (gridX 49) (gridY 49) 2 3 [3, 3] "no" (by decide)⟩

/-- Claim C3, counterexample: at scale 1 and pixel (3, 2) the DoG template differs
from the mathematical 2D convolution of the Gaussian with the Sobel-x kernel under
the same border policy (`cv2.filter2D` computes cross-correlation, which for this
kernel is the negation of the convolution, and the value there is nonzero). -/
theorem C3_cex :
    dogTemplate 1 r3 c2 ≠
      conv2dSpec (gaussian_filter (gridX 7) (gridY 7) 1 1 "yes") sobel_x r3 c2 := by
  intro h
  have hneg := dogTemplate_neg
  have hcorr := corr_neg_conv (gaussian_filter (gridX 7) (gridY 7) 1 1 "yes") r3 c2
  have hT : dogTemplate 1 r3 c2 =
      filter2D (gaussian_filter (gridX 7) (gridY 7) 1 1 "yes") sobel_x r3 c2 := rfl
  linarith [hneg, h, hcorr, hT]

/-- Claim C3, amended: for each scale the oriented template equals the NEGATION of
the mathematical 2D convolution of the 7×7 Gaussian with the Sobel-x kernel (i.e.
the cross-correlation, the convolution with the 180°-rotated kernel), with same-size
output and the reflect-101 border policy. -/
theorem C3_amended (sigma : ℝ) (r c : Fin 7) :
    dogTemplate sigma r c =
      -conv2dSpec (gaussian_filter (gridX 7) (gridY 7) sigma 1 "yes") sobel_x r c :=
  corr_neg_conv _ r c

/-- Claim C4: `LM "small"` and `LM t` for any `t ≠ "small"` each return exactly 48
kernels (each 49×49 by the type `Kernel 49`); `"small"` selects scales
{1, √2, 2, 2√2} and every other argument silently falls back to {√2, 2, 2√2, 4}. -/
theorem C4_thm (t : String) (h : t ≠ "small") :
    (LM "small").length = 48
    ∧ lmScales "small" = [1, Real.sqrt 2, 2, 2 * Real.sqrt 2]
    ∧ (LM t).length = 48
    ∧ lmScales t = [Real.sqrt 2, 2, 2 * Real.sqrt 2, 4] := by
  have hlen : ∀ s : String, (LM s).length = 48 := by
    intro s
    rw [LM_eq_blocks]
    simp only [lmBlock, List.length_append, List.length_map, List.length_range,
      lmScales_length]
  exact ⟨hlen "small", by simp [lmScales], hlen t, by simp [lmScales, h]⟩

/-- Witness for C4 at `t = "large"`. -/
theorem C4_witness :
    ("large" : String) ≠ "small" ∧ (LM "large").length = 48 :=
  ⟨by decide, (C4_thm "large" (by decide)).2.2.1⟩

/-- Claim C5: `dog_filter_bank` returns exactly 32 kernels (each 7×7 by the type
`Kernel 7`), ordered by scale (1 then √2) and then by orientation index 0..15,
where the kernel at orientation `i` is the scale's template rotated by
`i·360/16` degrees about the center pixel (`rotate`). -/
theorem C5_thm :
    dog_filter_bank.length = 32
    ∧ dog_filter_bank =
        ((List.range 16).map fun (i : ℕ) => rotate 7 ((i : ℝ) * 360 / 16) (dogTemplate 1))
        ++ ((List.range 16).map fun (i : ℕ) =>
              rotate 7 ((i : ℝ) * 360 / 16) (dogTemplate (Real.sqrt 2))) := by
  refine ⟨?_, dog_eq_blocks⟩
  rw [dog_eq_blocks]
  simp only [List.length_append, List.length_map, List.length_range]

/-- Claim C6: for every orientation count `n > 0`, `gabor` returns `5·n` kernels
(each 49×49), ordered by wavelength in {2, 5, 10, 15, 20} then orientation; the
kernel for wavelength `λ` and orientation `i` is
`exp(−0.5·(x_θ² + γ²·y_θ²)/σ²)·cos(2π·x_θ/λ + ψ)` with `θ = i·π/n`; in particular
`gabor 8 8 0.65 0` has exactly 40 kernels. -/
theorem C6_thm (n : ℕ) (sigma gamma psi : ℝ) (hn : 0 < n) :
    (gabor n sigma gamma psi).length = 5 * n
    ∧ (gabor 8 8 0.65 0).length = 40
    ∧ (∀ (w : Fin 5) (i : Fin n),
        (gabor n sigma gamma psi)[(n * (w : ℕ) + (i : ℕ))]? =
          some (gaborKernel (lamOf w) n (i : ℕ) sigma gamma psi))
    ∧ ∀ (lam : ℝ) (m i : ℕ) (px py : Fin 49),
        gaborKernel lam m i sigma gamma psi px py =
          Real.exp (-0.5 *
              ((gridX 49 px py * Real.cos ((i : ℝ) * π / (m : ℝ)) +
                  gridY 49 px py * Real.sin ((i : ℝ) * π / (m : ℝ))) ^ 2 +
                gamma ^ 2 *
                  (-(gridX 49 px py) * Real.sin ((i : ℝ) * π / (m : ℝ)) +
                    gridY 49 px py * Real.cos ((i : ℝ) * π / (m : ℝ))) ^ 2) / sigma ^ 2) *
            Real.cos (2 * π *
                (gridX 49 px py * Real.cos ((i : ℝ) * π / (m : ℝ)) +
                  gridY 49 px py * Real.sin ((i : ℝ) * π / (m : ℝ))) / lam + psi) := by
  have hlen : ∀ (m : ℕ) (s g p : ℝ), (gabor m s g p).length = 5 * m := by
    intro m s g p
    simp only [gabor, gaborWavelengths, List.map_cons, List.map_nil, List.flatten_cons,
      List.flatten_nil, List.length_append, List.length_map, List.length_range,
      List.length_nil]
    ring
  refine ⟨hlen n sigma gamma psi, by rw [hlen], ?_, fun lam m i px py => rfl⟩
  intro w i
  have e : gabor n sigma gamma psi =
      (gaborWavelengths.map (fun lam =>
        (List.range n).map fun (i : ℕ) => gaborKernel lam n i sigma gamma psi)).flatten := rfl
  have key := flatten_map_getElem gaborWavelengths
    (fun lam => (List.range n).map fun (i : ℕ) => gaborKernel lam n i sigma gamma psi) n
    (by intro a; simp) (w : ℕ) (i : ℕ) i.isLt
  rw [e, key]
  have hw : gaborWavelengths[(w : ℕ)]? = some (lamOf w) := by
    fin_cases w <;> rfl
  rw [hw]
  simp only [Option.some_bind]
  rw [List.getElem?_map, List.getElem?_range i.isLt]
  rfl

/-- Witness for C6 at `orientation = 8`, `σ = 8`, `γ = 0.65`, `ψ = 0`. -/
theorem C6_witness :
    (0 : ℕ) < 8 ∧ (gabor 8 8 0.65 0).length = 40 :=
  ⟨by norm_num, (C6_thm 8 8 0.65 0 (by norm_num)).2.1⟩

/-- Claim C7: for every grid `(X, Y)`, scale `σ > 0` and elongation ratio,
`gaussian_filter` returns `exp(−(x²/(2σx²) + y²/(2σy²))) / (2π·σx·σy)` pointwise,
with `σx = σ` and `σy = r·σ` when elongation is enabled, else `σy = σx`. -/
theorem C7_thm {n : ℕ} (X Y : Kernel n) (sigma elongation : ℝ) (elongate : String)
    (hσ : 0 < sigma) (i j : Fin n) :
    gaussian_filter X Y sigma elongation elongate i j =
      Real.exp (-((X i j) ^ 2 / (2 * sigma ^ 2) +
          (Y i j) ^ 2 / (2 * (if elongate = "yes" then elongation * sigma else sigma) ^ 2))) /
        (2 * π * sigma * (if elongate = "yes" then elongation * sigma else sigma)) := rfl

/-- Witness for C7 at `σ = 1`, `r = 3`, `elongate = "yes"`, grid point (0, 0). -/
theorem C7_witness :
    (0 : ℝ) < 1 ∧
      gaussian_filter (gridX 49) (gridY 49) 1 3 "yes" f0 f0 =
        Real.exp (-((gridX 49 f0 f0) ^ 2 / (2 * (1 : ℝ) ^ 2) +
            (gridY 49 f0 f0) ^ 2 /
              (2 * (if "yes" = "yes" then (3 : ℝ) * 1 else 1) ^ 2))) /
          (2 * π * 1 * (if "yes" = "yes" then (3 : ℝ) * 1 else 1)) :=
  ⟨by norm_num, C7_thm (gridX 49) (gridY 49) 1 3 "yes" (by norm_num) f0 f0⟩

/-- Claim C8: `gaussian_filter` is symmetric under negating both coordinates:
its value on the grid `(X, Y)` equals its value on the negated grid `(−X, −Y)`,
exactly. -/
theorem C8_thm {n : ℕ} (X Y : Kernel n) (sigma elongation : ℝ) (elongate : String)
    (hσ : 0 < sigma) (i j : Fin n) :
    gaussian_filter X Y sigma elongation elongate i j =
      gaussian_filter (fun a b => -(X a b)) (fun a b => -(Y a b))
        sigma elongation elongate i j := by
  simp only [gaussian_filter, neg_sq]

/-- Witness for C8 at `σ = 1`, `r = 3`, `elongate = "yes"`, grid point (0, 0). -/
theorem C8_witness :
    (0 : ℝ) < 1 ∧
      gaussian_filter (gridX 49) (gridY 49) 1 3 "yes" f0 f0 =
        gaussian_filter (fun a b => -(gridX 49 a b)) (fun a b => -(gridY 49 a b))
          1 3 "yes" f0 f0 :=
  ⟨by norm_num, C8_thm (gridX 49) (gridY 49) 1 3 "yes" (by norm_num) f0 f0⟩

/-- Claim C9: `derivative_gaussian_filter` with order `[1, 0]` is antisymmetric
under `x → −x`: on the x-negated grid it returns the pointwise negation of its
value on the original grid. -/
theorem C9_thm {n : ℕ} (X Y : Kernel n) (sigma elongation : ℝ) (elongate : String)
    (hσ : 0 < sigma) :
    derivative_gaussian_filter (fun a b => -(X a b)) Y sigma elongation [1, 0] elongate =
      (derivative_gaussian_filter X Y sigma elongation [1, 0] elongate).map
        (fun K => fun a b => -(K a b)) := by
  have hg : gaussian_filter (fun a b => -(X a b)) Y sigma elongation elongate =
      gaussian_filter X Y sigma elongation elongate := by
    funext a b
    simp [gaussian_filter, neg_sq]
  simp only [derivative_gaussian_filter, hg]
  norm_num
  funext a b
  ring

/-- Witness for C9 at `σ = 1`, `r = 3`, `elongate = "yes"` on the 49×49 grid. -/
theorem C9_witness :
    (0 : ℝ) < 1 ∧
      derivative_gaussian_filter (fun a b => -(gridX 49 a b)) (gridY 49) 1 3 [1, 0] "yes" =
        (derivative_gaussian_filter (gridX 49) (gridY 49) 1 3 [1, 0] "yes").map
          (fun K => fun a b => -(K a b)) :=
  ⟨by norm_num, C9_thm (gridX 49) (gridY 49) 1 3 "yes" (by norm_num)⟩

/-- Claim C10: the elongation ratio affects `gaussian_filter` only when `elongate`
is exactly `"yes"`: for any other flag value the output is the isotropic Gaussian
with `σy = σx` regardless of the ratio, and with ratio 1 the `"yes"` and `"no"`
outputs coincide. -/
theorem C10_thm {n : ℕ} (X Y : Kernel n) (sigma elongation elongation2 : ℝ)
    (elongate : String) (h : elongate ≠ "yes") :
    gaussian_filter X Y sigma elongation elongate =
        gaussian_filter X Y sigma elongation2 elongate
    ∧ (∀ i j, gaussian_filter X Y sigma elongation elongate i j =
        Real.exp (-((X i j) ^ 2 / (2 * sigma ^ 2) + (Y i j) ^ 2 / (2 * sigma ^ 2))) /
          (2 * π * sigma * sigma))
    ∧ gaussian_filter X Y sigma 1 "yes" = gaussian_filter X Y sigma 1 "no" := by
  refine ⟨funext fun i => funext fun j => ?_, fun i j => ?_,
    funext fun i => funext fun j => ?_⟩
  · simp [gaussian_filter, h]
  · simp [gaussian_filter, h]
  · simp [gaussian_filter]

/-- Witness for C10 at `elongate = "no"`, ratios 3 and 7. -/
theorem C10_witness :
    ("no" : String) ≠ "yes" ∧
      gaussian_filter (gridX 49) (gridY 49) 1 3 "no" =
        gaussian_filter (gridX 49) (gridY 49) 1 7 "no" :=
  ⟨by decide, (C10_thm (gridX 49) (gridY 49) 1 3 7 "no" (by decide)).1⟩

end

end EdgeDetection
